import Mathlib

/-!
Shallow embedding of the `roller` terminal dashboard core, translated from
`src/network.rs`, `src/tui.rs` and `src/main.rs`.

Modelling conventions:
* Rust `f32` metric values are modelled as `ℚ`.  The values reaching the
  sort comparator are produced by `str::parse::<f32>().unwrap_or_default()`
  on decimal numeric strings; we model that parse on decimal literals
  (optional sign, digits, optional fraction part), which never produces
  NaN or infinities, so `partial_cmp` is total on the modelled values and
  its `unwrap_or(Ordering::Equal)` branch is dead.
* A JSON payload is modelled after lexing as the inductive `Json`; the raw
  `data` string of an SSE event is modelled as `Option Json`, where `none`
  stands for text that is not valid JSON at all.
* `Vec::sort_by` is a stable sort.  For a comparator that is a total
  preorder (as here, comparing rational sort keys) every stable sort
  produces the same output list, so `List.mergeSort` models it exactly.
* Terminal / rendering I/O is an external collaborator and is not modelled;
  the event-loop model records, per iteration, the outcome of
  `stream.try_next()` and the key (if any) obtained from the input poll.
-/

namespace Roller

/-- JSON values after lexing (numbers restricted to naturals, which is all
the `u64` field `block_number` accepts from the feed). -/
inductive Json where
  | null : Json
  | bool (b : Bool) : Json
  | num (n : Nat) : Json
  | str (s : String) : Json
  | arr (elems : List Json) : Json
  | obj (fields : List (String × Json)) : Json

/-- Values of a run of decimal digit characters; `none` if some character is
not a digit. -/
def digitVals (cs : List Char) : Option (List Nat) :=
  cs.mapM (fun c => if c.isDigit then some (c.toNat - 48) else none)

/-- Decimal digits to the natural number they denote, most significant first. -/
def natOfDigits (ds : List Nat) : Nat :=
  ds.foldl (fun acc d => 10 * acc + d) 0

/-- Model of Rust `str::parse::<f32>` restricted to decimal literals:
optional sign, an integer part and an optional fraction part, at least one
digit overall.  Returns `none` on anything malformed (the `Err` case). -/
def parseDecimal (s : String) : Option ℚ :=
  let cs := s.toList
  let signed : Bool × List Char :=
    match cs with
    | '-' :: rest => (true, rest)
    | '+' :: rest => (false, rest)
    | _ => (false, cs)
  let intPart := signed.2.takeWhile (fun c => c ≠ '.')
  let rest := signed.2.dropWhile (fun c => c ≠ '.')
  let fracPart : Option (List Char) :=
    match rest with
    | [] => some []
    | _ :: frac => if frac.any (fun c => c = '.') then none else some frac
  match fracPart with
  | none => none
  | some frac =>
    if intPart.isEmpty && frac.isEmpty then none
    else
      match digitVals intPart, digitVals frac with
      | some di, some df =>
        let mag : ℚ := (natOfDigits di : ℚ) + (natOfDigits df : ℚ) / (10 : ℚ) ^ df.length
        some (if signed.1 then -mag else mag)
      | _, _ => none

/-- Embeds `deserialize_string_to_f32` (src/network.rs): serde first
deserializes a `String` (failing on any non-string JSON value), then
`value.parse().unwrap_or_default()` turns a malformed numeric string into
`0.0` instead of an error. -/
def deserialize_string_to_f32 : Json → Option ℚ
  | .str s => some ((parseDecimal s).getD 0)
  | _ => none

/-- Embeds `Data` (src/network.rs): block number plus the three per-second
metrics parsed from numeric strings. -/
structure Data where
  block_number : Nat
  tps : ℚ
  gps : ℚ
  dps : ℚ
deriving DecidableEq

/-- Embeds `Data::default()`: all fields zero. -/
def Data.default : Data := ⟨0, 0, 0, 0⟩

/-- First value bound to a field name in a JSON object (payloads with
duplicate keys, which serde rejects, are outside the model). -/
def getField (fields : List (String × Json)) (key : String) : Option Json :=
  (fields.find? (fun p => p.1 == key)).map (fun p => p.2)

/-- Embeds serde's derived deserializer for `Data`: the payload must be a
JSON object, `blockNumber` must be present with a `u64` value, and each of
`tps`/`gps`/`dps` must be present and go through
`deserialize_string_to_f32`; any missing field or wrong-typed value fails
the whole struct (there is no `#[serde(default)]`), while a present but
malformed numeric string only defaults that field to `0`. -/
def parseData : Json → Option Data
  | .obj fields => do
    let bnJ ← getField fields "blockNumber"
    let bn ← match bnJ with
      | .num n => some n
      | _ => none
    let tpsJ ← getField fields "tps"
    let tps ← deserialize_string_to_f32 tpsJ
    let gpsJ ← getField fields "gps"
    let gps ← deserialize_string_to_f32 gpsJ
    let dpsJ ← getField fields "dps"
    let dps ← deserialize_string_to_f32 dpsJ
    pure ⟨bn, tps, gps, dps⟩
  | _ => none

/-- Embeds serde deserialization of `Option<Data>` from a JSON value:
JSON `null` gives `None`, anything else must parse as a `Data`. -/
def parseOptionData : Json → Option (Option Data)
  | .null => some none
  | j => (parseData j).map some

/-- Result of `serde_json::from_str::<Option<Data>>(&event.data)`: the outer
`Option` is the `Result` (with `none` for `Err`), covering both text that is
not valid JSON (`p = none`) and a JSON value of the wrong shape. -/
def serdeOptionData : Option Json → Option (Option Data)
  | none => none
  | some j => parseOptionData j

/-- Embeds `serde_json::from_str(&event.data).unwrap_or_default()` in
`Tui::update_networks` (src/tui.rs): a deserialization error is absorbed
into `Option::<Data>::default() = None`. -/
def decodeEventData (p : Option Json) : Option Data :=
  (serdeOptionData p).getD none

/-- Embeds `Network` (src/network.rs). -/
structure Network where
  name : String
  label : String
  parent_chain : String
  da : String
  stack : String
  data : Option Data
deriving DecidableEq

/-- Embeds `Network::update_data`: replaces the data wholesale. -/
def Network.update_data (n : Network) (d : Option Data) : Network :=
  { n with data := d }

/-- Embeds `SortingStrategy` (src/tui.rs); `Gps` is the `#[default]`. -/
inductive SortingStrategy where
  | gps : SortingStrategy
  | tps : SortingStrategy
  | dps : SortingStrategy
deriving DecidableEq

/-- Embeds the `Tui` state (src/tui.rs); `selected` is the `TableState`
selection, an `Option` of a row index. -/
structure Tui where
  networks : List Network
  selected : Option Nat
  sorting_strategy : SortingStrategy
  info_rendered : Bool
deriving DecidableEq

/-- Embeds `Tui::new`: selection starts at row 0, strategy at the default
(`Gps`), info bar not yet rendered. -/
def Tui.new (networks : List Network) : Tui :=
  ⟨networks, some 0, .gps, false⟩

/-- Sort key the comparator in `Tui::sort_networks` reads for a network
under a strategy: the selected field of its data, with `Data::default()`
(all zeros) substituted when the data is absent. -/
def sortKey (s : SortingStrategy) (n : Network) : ℚ :=
  let d := n.data.getD Data.default
  match s with
  | .gps => d.gps
  | .tps => d.tps
  | .dps => d.dps

/-- The comparator of `Tui::sort_networks` as a boolean "may precede"
relation: the closure passed to `sort_by` returns `b.partial_cmp(&a)`
(descending), so `a` may come before `b` exactly when the comparator does
not return `Greater`, i.e. when `sortKey b ≤ sortKey a`.  Over `ℚ` the
comparison is total, so `unwrap_or(Ordering::Equal)` never fires. -/
def sortLe (s : SortingStrategy) (a b : Network) : Bool :=
  decide (sortKey s b ≤ sortKey s a)

/-- Embeds `Tui::sort_networks`: a stable sort of `networks` by the
comparator, modelled by `List.mergeSort`. -/
def Tui.sort_networks (t : Tui) : Tui :=
  { t with networks := t.networks.mergeSort (sortLe t.sorting_strategy) }

/-- Embeds the `iter_mut().find(|n| n.name == event.event_type)` update in
`Tui::update_networks`: only the first network whose name matches gets its
data replaced. -/
def updateFirst (id : String) (d : Option Data) : List Network → List Network
  | [] => []
  | n :: ns =>
    if n.name = id then n.update_data d :: ns
    else n :: updateFirst id d ns

/-- An SSE event as consumed by the core: the event type tag (the network
identifier) and the raw JSON payload. -/
structure Event where
  event_type : String
  data : Option Json

/-- Embeds `Tui::update_networks` (src/tui.rs): update the first matching
network with the decoded payload (silently dropping the event when no
network matches), then re-sort under the current strategy. -/
def Tui.update_networks (t : Tui) (e : Event) : Tui :=
  Tui.sort_networks
    { t with networks := updateFirst e.event_type (decodeEventData e.data) t.networks }

/-- Key codes relevant to `Tui::handle_input` and the main loop; `other`
stands for any non-character, non-arrow key. -/
inductive KeyCode where
  | up : KeyCode
  | down : KeyCode
  | char (c : Char) : KeyCode
  | other : KeyCode
deriving DecidableEq

/-- Embeds `Tui::handle_input` (src/tui.rs): with `current` the selected
row and `network_size = len.saturating_sub(1)`, Up selects
`current.saturating_sub(1).min(network_size)`, Down selects
`current.saturating_add(1).min(network_size)`, and 'g'/'t'/'k' switch the
strategy and re-sort immediately; every other key is ignored, as is any
key when no row is selected. -/
def Tui.handle_input (t : Tui) (key : KeyCode) : Tui :=
  match t.selected with
  | none => t
  | some current =>
    let network_size := t.networks.length - 1
    match key with
    | .up => { t with selected := some (min (current - 1) network_size) }
    | .down => { t with selected := some (min (current + 1) network_size) }
    | .char c =>
      if c = 'g' then Tui.sort_networks { t with sorting_strategy := .gps }
      else if c = 't' then Tui.sort_networks { t with sorting_strategy := .tps }
      else if c = 'k' then Tui.sort_networks { t with sorting_strategy := .dps }
      else t
    | .other => t

/-- One `SSE` item as matched in main: an event, or anything else
(a comment), which `if let Some(SSE::Event(..))` skips. -/
inductive SSEItem where
  | event (e : Event) : SSEItem
  | comment : SSEItem

/-- Outcome of one `stream.try_next().await` in the main loop:
`err` is `Err(_)`, `ok none` is `Ok(None)` (end of stream), and
`ok (some it)` is `Ok(Some(it))`. -/
inductive StreamItem where
  | err : StreamItem
  | ok (item : Option SSEItem) : StreamItem

/-- One iteration of the main event loop (src/main.rs): the `while let
Ok(event)` head exits on a stream error; otherwise an `SSE::Event` item is
merged (and rendered); then the input poll result is handled — 'q' breaks
the loop, any other key goes to `handle_input`.  `none` means the loop
ended this iteration; `some t` is the state carried into the next one. -/
def loopIter (t : Tui) (item : StreamItem) (key : Option KeyCode) : Option Tui :=
  match item with
  | .err => none
  | .ok it =>
    let t1 :=
      match it with
      | some (.event e) => t.update_networks e
      | _ => t
    match key with
    | none => some t1
    | some (.char c) => if c = 'q' then none else some (t1.handle_input (.char c))
    | some k => some (t1.handle_input k)

/-- Concrete entity with absent metrics, identifier "A", for examples. -/
def netA : Network := ⟨"A", "Chain A", "ethereum", "celestia", "op", none⟩

/-- Concrete entity with absent metrics, identifier "B", for examples. -/
def netB : Network := ⟨"B", "Chain B", "ethereum", "eigenda", "arb", none⟩

/-- Concrete entity with present metrics (gps 1), identifier "A". -/
def netLow : Network := { netA with data := some ⟨3, 5, 1, 7⟩ }

/-- Concrete entity with present metrics (gps 2), identifier "B". -/
def netHigh : Network := { netB with data := some ⟨4, 2, 2, 9⟩ }

/-- Concrete event for identifier "A" whose JSON payload is an object with
no "tps" field at all. -/
def eventMissingTps : Event :=
  ⟨"A", some (.obj [("blockNumber", .num 5), ("gps", .str "2"), ("dps", .str "3")])⟩

/-- Concrete event for identifier "A" whose payload is valid JSON but not
an object, so the whole `Data` deserialization fails. -/
def eventBadShape : Event := ⟨"A", some (.num 7)⟩

/-- Concrete event for identifier "B" carrying the payload of spec
Example A: block number 10 and the numeric strings "1.5"/"3.2"/"0.1". -/
def eventExampleA : Event :=
  ⟨"B", some (.obj [("blockNumber", .num 10), ("tps", .str "1.5"),
                    ("gps", .str "3.2"), ("dps", .str "0.1")])⟩

/-- Concrete event for identifier "A" whose "tps" field is present but is
the malformed numeric string "x2". -/
def eventMalformedTps : Event :=
  ⟨"A", some (.obj [("blockNumber", .num 5), ("tps", .str "x2"),
                    ("gps", .str "2"), ("dps", .str "3")])⟩

end Roller

namespace Roller

/-! Helper lemmas about the embedded operations. -/

/-- Evaluation of the stable sort on a two-element list. -/
theorem mergeSort_pair {α : Type} (le : α → α → Bool) (a b : α) :
    List.mergeSort [a, b] le = if le a b then [a, b] else [b, a] := by
  rw [List.mergeSort]
  simp [List.merge]

/-- The comparator relation of `sort_networks` is transitive. -/
theorem sortLe_trans (s : SortingStrategy) : ∀ a b c : Network,
    sortLe s a b → sortLe s b c → sortLe s a c := by
  intro a b c hab hbc
  simp only [sortLe, decide_eq_true_eq] at hab hbc ⊢
  exact le_trans hbc hab

/-- The comparator relation of `sort_networks` is total. -/
theorem sortLe_total (s : SortingStrategy) : ∀ a b : Network,
    sortLe s a b || sortLe s b a := by
  intro a b
  simp only [sortLe, Bool.or_eq_true, decide_eq_true_eq]
  exact le_total (sortKey s b) (sortKey s a)

/-- The in-place data update never changes the identifier column. -/
theorem updateFirst_map_name (id : String) (d : Option Data) :
    ∀ l : List Network, (updateFirst id d l).map Network.name = l.map Network.name := by
  intro l
  induction l with
  | nil => rfl
  | cons n ns ih =>
    by_cases h : n.name = id
    · simp [updateFirst, h, Network.update_data]
    · simp [updateFirst, h, ih]

/-- With no matching identifier, the update leaves the list untouched. -/
theorem updateFirst_of_no_match (id : String) (d : Option Data) :
    ∀ l : List Network, (∀ n ∈ l, n.name ≠ id) → updateFirst id d l = l := by
  intro l
  induction l with
  | nil => intro _; rfl
  | cons n ns ih =>
    intro h
    have hn : n.name ≠ id := h n (by simp)
    rw [updateFirst, if_neg hn, ih (fun m hm => h m (List.mem_cons_of_mem _ hm))]

/-- Locating the first matching entity: everything before it is untouched,
it gets the new data, everything after it is untouched. -/
theorem updateFirst_append (id : String) (d : Option Data) (n : Network) (l₂ : List Network) :
    ∀ l₁ : List Network, (∀ m ∈ l₁, m.name ≠ id) → n.name = id →
      updateFirst id d (l₁ ++ n :: l₂) = l₁ ++ n.update_data d :: l₂ := by
  intro l₁
  induction l₁ with
  | nil => intro _ hn; simp [updateFirst, hn]
  | cons m ms ih =>
    intro h hn
    have hm : m.name ≠ id := h m (by simp)
    simp only [List.cons_append, updateFirst, if_neg hm]
    exact congrArg (m :: ·) (ih (fun x hx => h x (List.mem_cons_of_mem _ hx)) hn)

/-- The networks list after `sort_networks`, unfolded. -/
theorem sort_networks_networks (t : Tui) :
    (Tui.sort_networks t).networks = t.networks.mergeSort (sortLe t.sorting_strategy) := rfl

/-- The networks list after `update_networks`, unfolded. -/
theorem update_networks_networks (t : Tui) (e : Event) :
    (t.update_networks e).networks
      = (updateFirst e.event_type (decodeEventData e.data) t.networks).mergeSort
          (sortLe t.sorting_strategy) := rfl

/-- One update permutes but never changes the identifier column. -/
theorem update_networks_names (t : Tui) (e : Event) :
    ((t.update_networks e).networks.map Network.name).Perm (t.networks.map Network.name) := by
  rw [update_networks_networks]
  refine ((List.mergeSort_perm _ _).map Network.name).trans ?_
  rw [updateFirst_map_name]

/-- C1 counterexample: an iteration that reads end-of-stream (`Ok(None)`)
with no pending key continues the loop with the state unchanged instead of
ending it, because the `while let Ok(event)` head only exits on `Err`. -/
theorem loop_continues_on_end_of_stream :
    loopIter (Tui.new []) (.ok none) none = some (Tui.new []) := rfl

/-- C1 (amended): an iteration of the main loop ends the loop exactly when
the stream read yields an error or the polled key is 'q'; end-of-stream
items do not end the loop. -/
theorem loop_exit_iff (t : Tui) (item : StreamItem) (key : Option KeyCode) :
    loopIter t item key = none ↔ item = .err ∨ key = some (.char 'q') := by
  cases item with
  | err => simp [loopIter]
  | ok it =>
    cases key with
    | none => simp [loopIter]
    | some k =>
      cases k with
      | up => simp [loopIter]
      | down => simp [loopIter]
      | other => simp [loopIter]
      | char c =>
        by_cases hc : c = 'q'
        · subst hc; simp [loopIter]
        · simp [loopIter, hc]

/-- C5: any finite sequence of updates leaves the multiset of entity
identifiers in the registry unchanged: no entity is inserted or removed. -/
theorem identifier_multiset_invariant (t : Tui) (es : List Event) :
    ((es.foldl Tui.update_networks t).networks.map Network.name).Perm
      (t.networks.map Network.name) := by
  induction es generalizing t with
  | nil => exact List.Perm.refl _
  | cons e es ih => exact (ih (t.update_networks e)).trans (update_networks_names t e)

/-- C7: the sort is stable: two entities with equal selected-metric keys
(absent metrics counting as zero) keep their relative order. -/
theorem sort_stable (t : Tui) (a b : Network)
    (hsub : List.Sublist [a, b] t.networks)
    (heq : sortKey t.sorting_strategy a = sortKey t.sorting_strategy b) :
    List.Sublist [a, b] (Tui.sort_networks t).networks := by
  rw [sort_networks_networks]
  refine List.pair_sublist_mergeSort (sortLe_trans _) (sortLe_total _) ?_ hsub
  simp [sortLe, heq]

/-- Witness for C7: two metric-less entities (both keys 0) stay in order. -/
theorem sort_stable_witness :
    List.Sublist [netA, netB] ([netA, netB] : List Network)
    ∧ sortKey SortingStrategy.gps netA = sortKey SortingStrategy.gps netB
    ∧ List.Sublist [netA, netB]
        (Tui.sort_networks ⟨[netA, netB], some 0, .gps, false⟩).networks :=
  ⟨List.Sublist.refl _, rfl,
    sort_stable ⟨[netA, netB], some 0, .gps, false⟩ netA netB (List.Sublist.refl _) rfl⟩

/-- C6: after a sort, every adjacent pair of the resulting sequence is in
descending order of the selected metric, absent metrics counting as zero. -/
theorem sort_correct (t : Tui) (i : Nat)
    (h : i + 1 < (Tui.sort_networks t).networks.length) :
    sortKey t.sorting_strategy ((Tui.sort_networks t).networks.get ⟨i + 1, h⟩)
      ≤ sortKey t.sorting_strategy
          ((Tui.sort_networks t).networks.get ⟨i, Nat.lt_of_succ_lt h⟩) := by
  have hp : ((Tui.sort_networks t).networks).Pairwise
      (fun a b => sortLe t.sorting_strategy a b = true) := by
    rw [sort_networks_networks]
    exact List.sorted_mergeSort (sortLe_trans _) (sortLe_total _) _
  have h2 := List.pairwise_iff_get.mp hp ⟨i, Nat.lt_of_succ_lt h⟩ ⟨i + 1, h⟩ (by simp)
  simpa [sortLe] using h2

/-- Witness for C6: a two-entity registry (gps keys 2 and 1), adjacent pair
at positions 0 and 1 after sorting. -/
theorem sort_correct_witness :
    (0 + 1 < (Tui.sort_networks ⟨[netHigh, netLow], some 0, .gps, false⟩).networks.length)
    ∧ sortKey SortingStrategy.gps
        ((Tui.sort_networks ⟨[netHigh, netLow], some 0, .gps, false⟩).networks.get
          ⟨0 + 1, by simp [sort_networks_networks]⟩)
      ≤ sortKey SortingStrategy.gps
        ((Tui.sort_networks ⟨[netHigh, netLow], some 0, .gps, false⟩).networks.get
          ⟨0, by simp [sort_networks_networks]⟩) :=
  ⟨by simp [sort_networks_networks],
    sort_correct ⟨[netHigh, netLow], some 0, .gps, false⟩ 0 (by simp [sort_networks_networks])⟩

/-- C4 counterexample: an update whose identifier matches no entity still
re-sorts the registry, so on an unsorted registry the order changes. -/
theorem unknown_id_reorders :
    (([netLow, netHigh] : List Network).all (fun n => n.name != "C"))
    ∧ (Tui.update_networks ⟨[netLow, netHigh], some 0, .gps, false⟩ ⟨"C", none⟩).networks
        = [netHigh, netLow]
    ∧ ([netHigh, netLow] : List Network) ≠ [netLow, netHigh] := by
  refine ⟨by decide, ?_, by decide⟩
  rw [update_networks_networks]
  rw [updateFirst_of_no_match _ _ _ (by decide)]
  rw [mergeSort_pair]
  rw [if_neg (by simp [sortLe, sortKey, netLow, netHigh, netA, netB])]

/-- C4 (amended): an update whose identifier matches no entity changes no
entity's data and raises no error, but the registry is still re-sorted by
the current strategy, so the stored order is the stable sort of the old
order (and hence unchanged whenever the registry was already sorted). -/
theorem unknown_id_update (t : Tui) (e : Event)
    (h : ∀ n ∈ t.networks, n.name ≠ e.event_type) :
    (t.update_networks e).networks = t.networks.mergeSort (sortLe t.sorting_strategy)
    ∧ ((t.update_networks e).networks).Perm t.networks
    ∧ (t.networks.Pairwise (fun a b => sortLe t.sorting_strategy a b = true) →
        (t.update_networks e).networks = t.networks) := by
  have key : (t.update_networks e).networks
      = t.networks.mergeSort (sortLe t.sorting_strategy) := by
    rw [update_networks_networks, updateFirst_of_no_match _ _ _ h]
  refine ⟨key, ?_, ?_⟩
  · rw [key]; exact List.mergeSort_perm _ _
  · intro hs; rw [key]; exact List.mergeSort_of_sorted hs

/-- Witness for C4: spec Example B, a two-entity metric-less registry and
an update for the unknown identifier "C"; no entity changes. -/
theorem unknown_id_update_witness :
    (∀ n ∈ ([netA, netB] : List Network), n.name ≠ "C")
    ∧ ((Tui.update_networks ⟨[netA, netB], some 0, .gps, false⟩ ⟨"C", none⟩).networks).Perm
        [netA, netB] :=
  ⟨by decide,
    (unknown_id_update ⟨[netA, netB], some 0, .gps, false⟩ ⟨"C", none⟩ (by decide)).2.1⟩

end Roller

namespace Roller

/-- C2 counterexample: for a payload whose "tps" field is missing, the whole
`Data` deserialization fails (there is no per-field default), so the matched
entity's metrics are replaced by `None` — no field is set to 0.0. -/
theorem missing_field_erases_metrics :
    (Tui.update_networks ⟨[netLow], some 0, .gps, false⟩ eventMissingTps).networks.map
        Network.data = [none]
    ∧ ¬ ((Tui.update_networks ⟨[netLow], some 0, .gps, false⟩ eventMissingTps).networks.map
          Network.data = [some ⟨5, 0, 2, 3⟩]) := by
  have h1 : (Tui.update_networks ⟨[netLow], some 0, .gps, false⟩ eventMissingTps).networks.map
      Network.data = [none] := by
    rw [update_networks_networks]
    show (List.mergeSort [netLow.update_data none] (sortLe .gps)).map Network.data = [none]
    simp [Network.update_data]
  exact ⟨h1, by rw [h1]; simp⟩

/-- C2 (amended): when the matched event payload is an object carrying all
four fields, with block number `bn` and the metric fields as strings, a
malformed "tps" string deserializes to 0.0, the update still replaces the
entity's metrics wholesale, and no error is raised (the decoding functions
are total); missing fields instead fail the whole payload (see C3). -/
theorem malformed_field_defaults_zero (t : Tui) (e : Event)
    (l₁ l₂ : List Network) (n : Network) (bn : Nat) (st sg sd : String)
    (hsplit : t.networks = l₁ ++ n :: l₂)
    (hfirst : ∀ m ∈ l₁, m.name ≠ e.event_type)
    (hname : n.name = e.event_type)
    (hdata : e.data = some (.obj [("blockNumber", .num bn), ("tps", .str st),
                                  ("gps", .str sg), ("dps", .str sd)]))
    (hmal : parseDecimal st = none) :
    (t.update_networks e).networks
      = (l₁ ++ n.update_data
            (some ⟨bn, 0, (parseDecimal sg).getD 0, (parseDecimal sd).getD 0⟩) :: l₂).mergeSort
          (sortLe t.sorting_strategy) := by
  have hd : decodeEventData e.data
      = some ⟨bn, (parseDecimal st).getD 0, (parseDecimal sg).getD 0,
              (parseDecimal sd).getD 0⟩ := by
    rw [hdata]
    rfl
  rw [update_networks_networks, hsplit, updateFirst_append _ _ _ _ _ hfirst hname, hd, hmal]
  simp only [Option.getD_none]

/-- Witness for C2: entity "A" with old metrics, payload with malformed
"tps" string "x2"; the update applies with tps defaulted to 0. -/
theorem malformed_field_defaults_zero_witness :
    (parseDecimal "x2" = none)
    ∧ (netLow.name = eventMalformedTps.event_type)
    ∧ (Tui.update_networks ⟨[netLow], some 0, .gps, false⟩ eventMalformedTps).networks
        = [netLow.update_data (some ⟨5, 0, 2, 3⟩)] := by
  refine ⟨by decide, rfl, ?_⟩
  have h := malformed_field_defaults_zero ⟨[netLow], some 0, .gps, false⟩ eventMalformedTps
      [] [] netLow 5 "x2" "2" "3" rfl (by simp) rfl rfl (by decide)
  rw [h]
  have h2 : parseDecimal "2" = some 2 := by
    simp [parseDecimal, digitVals, natOfDigits, List.mapM.loop]
  have h3 : parseDecimal "3" = some 3 := by
    simp [parseDecimal, digitVals, natOfDigits, List.mapM.loop]
  simp [h2, h3]

/-- C3: when the whole payload fails to deserialize as an `Option<Data>`
(not valid JSON, or a JSON value of the wrong shape), the first entity
matching the event identifier has its metrics replaced by `None`, erasing
whatever it held before. -/
theorem whole_payload_failure_erases (t : Tui) (e : Event)
    (l₁ l₂ : List Network) (n : Network)
    (hsplit : t.networks = l₁ ++ n :: l₂)
    (hfirst : ∀ m ∈ l₁, m.name ≠ e.event_type)
    (hname : n.name = e.event_type)
    (hfail : serdeOptionData e.data = none) :
    (t.update_networks e).networks
      = (l₁ ++ n.update_data none :: l₂).mergeSort (sortLe t.sorting_strategy) := by
  have hd : decodeEventData e.data = none := by
    simp [decodeEventData, hfail]
  rw [update_networks_networks, hsplit, updateFirst_append _ _ _ _ _ hfirst hname, hd]

/-- Witness for C3: entity "A" holding metrics, event "A" whose payload is
the JSON number 7 (valid JSON, wrong shape); metrics become absent. -/
theorem whole_payload_failure_erases_witness :
    (serdeOptionData eventBadShape.data = none)
    ∧ (netLow.name = eventBadShape.event_type)
    ∧ (netLow.data ≠ none)
    ∧ (Tui.update_networks ⟨[netLow], some 0, .gps, false⟩ eventBadShape).networks
        = [netLow.update_data none] := by
  refine ⟨rfl, rfl, by decide, ?_⟩
  have h := whole_payload_failure_erases ⟨[netLow], some 0, .gps, false⟩ eventBadShape
      [] [] netLow rfl (by simp) rfl rfl
  simpa using h

end Roller

namespace Roller

/-- Key handling never changes how many networks are listed. -/
theorem handle_input_networks_length (t : Tui) (k : KeyCode) :
    (t.handle_input k).networks.length = t.networks.length := by
  cases hsel : t.selected with
  | none => simp [Tui.handle_input, hsel]
  | some i =>
    cases k with
    | up => simp [Tui.handle_input, hsel]
    | down => simp [Tui.handle_input, hsel]
    | other => simp [Tui.handle_input, hsel]
    | char c =>
      simp only [Tui.handle_input, hsel]
      split_ifs <;> simp [Tui.sort_networks, List.length_mergeSort]

/-- Key handling keeps the selection within `[0, max len 1)`. -/
theorem handle_input_selected_bound (t : Tui) (k : KeyCode) (i : Nat)
    (hsel : t.selected = some i) (hi : i < max t.networks.length 1) :
    ∃ j, (t.handle_input k).selected = some j ∧ j < max t.networks.length 1 := by
  cases k with
  | up =>
    refine ⟨min (i - 1) (t.networks.length - 1), ?_, by omega⟩
    simp [Tui.handle_input, hsel]
  | down =>
    refine ⟨min (i + 1) (t.networks.length - 1), ?_, by omega⟩
    simp [Tui.handle_input, hsel]
  | other => exact ⟨i, by simp [Tui.handle_input, hsel], hi⟩
  | char c =>
    refine ⟨i, ?_, hi⟩
    simp only [Tui.handle_input, hsel]
    split_ifs <;> simp [Tui.sort_networks, hsel]

/-- Folding key handling over a list never changes the networks count. -/
theorem foldl_handle_input_networks_length (ks : List KeyCode) :
    ∀ t : Tui, (ks.foldl Tui.handle_input t).networks.length = t.networks.length := by
  induction ks with
  | nil => intro t; rfl
  | cons k ks ih =>
    intro t
    rw [List.foldl_cons, ih, handle_input_networks_length]

/-- Folding key handling over a list keeps the selection in bounds. -/
theorem foldl_handle_input_selected_bound (ks : List KeyCode) :
    ∀ (t : Tui) (i : Nat), t.selected = some i → i < max t.networks.length 1 →
      ∃ j, (ks.foldl Tui.handle_input t).selected = some j
        ∧ j < max t.networks.length 1 := by
  induction ks with
  | nil => intro t i hsel hi; exact ⟨i, hsel, hi⟩
  | cons k ks ih =>
    intro t i hsel hi
    obtain ⟨j, hj, hjb⟩ := handle_input_selected_bound t k i hsel hi
    obtain ⟨j', hj', hj'b⟩ := ih (t.handle_input k) j hj
      (by rwa [handle_input_networks_length])
    refine ⟨j', by simpa [List.foldl_cons] using hj', ?_⟩
    rwa [handle_input_networks_length] at hj'b

/-- C8: from a selected index within bounds, the cursor index stays within
[0, L-1] after any number of key inputs (the bound `max L 1` also covers
L = 0, where the index stays 0); for L ≥ 1 and an in-range index, Up
computes max(0, i-1) (natural subtraction) and Down computes
min(L-1, i+1); for L = 0 both moves keep the cursor at 0. -/
theorem cursor_bounds (t : Tui) (i : Nat)
    (hsel : t.selected = some i) (hi : i < max t.networks.length 1) :
    (∀ ks : List KeyCode, ∃ j, (ks.foldl Tui.handle_input t).selected = some j
        ∧ j < max t.networks.length 1)
    ∧ (1 ≤ t.networks.length → i < t.networks.length →
        (t.handle_input .up).selected = some (i - 1)
        ∧ (t.handle_input .down).selected = some (min (t.networks.length - 1) (i + 1)))
    ∧ (t.networks.length = 0 →
        (t.handle_input .up).selected = some 0
        ∧ (t.handle_input .down).selected = some 0) := by
  refine ⟨fun ks => foldl_handle_input_selected_bound ks t i hsel hi, ?_, ?_⟩
  · intro h1 hlt
    constructor
    · simp only [Tui.handle_input, hsel]
      congr 1
      omega
    · simp only [Tui.handle_input, hsel]
      congr 1
      omega
  · intro h0
    have hi0 : i = 0 := by omega
    subst hi0
    constructor <;> (simp only [Tui.handle_input, hsel, h0]; congr 1)

/-- Witness for C8: spec Example C, a one-entity registry with cursor 0;
both moves keep the cursor at 0. -/
theorem cursor_bounds_witness :
    ((Tui.new [netA]).selected = some 0)
    ∧ (0 < max (Tui.new [netA]).networks.length 1)
    ∧ ((Tui.new [netA]).handle_input .up).selected = some 0
    ∧ ((Tui.new [netA]).handle_input .down).selected = some 0 := by
  refine ⟨rfl, by decide, ?_, ?_⟩
  · have h := (cursor_bounds (Tui.new [netA]) 0 rfl (by decide)).2.1 (by decide) (by decide)
    simpa using h.1
  · have h := (cursor_bounds (Tui.new [netA]) 0 rfl (by decide)).2.1 (by decide) (by decide)
    simpa using h.2

/-- C9: spec Example A — on the registry [A, B] (both without metrics)
under strategy Gps, the update for "B" with block number 10 and strings
"1.5"/"3.2"/"0.1" gives B the metrics (10, 1.5, 3.2, 0.1) and the
post-sort order is [B, A]. -/
theorem example_A_update :
    (Tui.update_networks ⟨[netA, netB], some 0, .gps, false⟩ eventExampleA).networks
      = [netB.update_data (some ⟨10, 3/2, 16/5, 1/10⟩), netA] := by
  have hd : decodeEventData eventExampleA.data = some ⟨10, 3/2, 16/5, 1/10⟩ := by
    simp [eventExampleA, decodeEventData, serdeOptionData, parseOptionData, parseData,
          getField, deserialize_string_to_f32, parseDecimal, digitVals, natOfDigits,
          List.mapM.loop]
    norm_num
  have hu : updateFirst "B" (some ⟨10, 3/2, 16/5, 1/10⟩) [netA, netB]
      = [netA, netB.update_data (some ⟨10, 3/2, 16/5, 1/10⟩)] := by
    simp [updateFirst, netA, netB]
  have hneg : ¬ (sortLe SortingStrategy.gps netA
      (netB.update_data (some ⟨10, 3/2, 16/5, 1/10⟩)) = true) := by
    simp only [sortLe, sortKey, Network.update_data, netA, netB, Data.default,
               decide_eq_true_eq, Option.getD_some]
    norm_num
  rw [update_networks_networks]
  show (updateFirst "B" (decodeEventData eventExampleA.data) [netA, netB]).mergeSort
      (sortLe SortingStrategy.gps)
    = [netB.update_data (some ⟨10, 3/2, 16/5, 1/10⟩), netA]
  rw [hd, hu, mergeSort_pair, if_neg hneg]

/-- C10: with a row selected, each sort-selection key ('g'/'t'/'k') sets
the strategy to the selected one and immediately re-sorts the networks by
that strategy's metric, with no event involved. -/
theorem strategy_switch_resorts (t : Tui) (i : Nat) (hsel : t.selected = some i) :
    ((t.handle_input (.char 'g')).sorting_strategy = .gps
      ∧ (t.handle_input (.char 'g')).networks = t.networks.mergeSort (sortLe .gps))
    ∧ ((t.handle_input (.char 't')).sorting_strategy = .tps
      ∧ (t.handle_input (.char 't')).networks = t.networks.mergeSort (sortLe .tps))
    ∧ ((t.handle_input (.char 'k')).sorting_strategy = .dps
      ∧ (t.handle_input (.char 'k')).networks = t.networks.mergeSort (sortLe .dps)) := by
  refine ⟨⟨?_, ?_⟩, ⟨?_, ?_⟩, ⟨?_, ?_⟩⟩ <;>
    simp [Tui.handle_input, hsel, Tui.sort_networks]

/-- Witness for C10: a one-entity registry with cursor 0; pressing 't'
switches the strategy to Tps. -/
theorem strategy_switch_resorts_witness :
    ((Tui.new [netA]).selected = some 0)
    ∧ ((Tui.new [netA]).handle_input (.char 't')).sorting_strategy = SortingStrategy.tps :=
  ⟨rfl, (strategy_switch_resorts (Tui.new [netA]) 0 rfl).2.1.1⟩

end Roller
